import Mathlib

/-!
# Conduit public API: frames over HTTP, error envelope, owner resolution

A shallow embedding of

* `controller/api/public/proto_over_http.go`: the length-prefixed frame codec
  (`serializeAsPayload`, `deserializePayloadFromReader`), the error envelope
  (`writeErrorToHttpResponse`, `writeProtoToHttpResponse`,
  `checkIfResponseHasConduitError`);
* `controller/k8s/replicasets.go`: `GetReplicaSet`, `GetDeploymentForPod`.

The Go standard library pieces the code runs on (`io.Reader`, `bufio.Reader`,
`encoding/binary`, `http.ResponseWriter`, `http.Header`) are modelled from
their documented behaviour in the sections headed `Go`. `http.StatusText` and
the protobuf encoding of `pb.ApiError` are parameters (`Lib`) of the envelope
functions; `wireLib` is the instance the concrete evaluations use.
-/

namespace Conduit

/-! ## Go: bytes, errors, byte streams -/

/-- A Go `byte`. -/
abbrev Byte := Fin 256

/-- The Go interface type `error`: the nil interface, a value that is not an
`httpError` (given by the text its `Error()` method returns, as made by
`errors.New` or `fmt.Errorf`), or the repository type `httpError`. -/
inductive error where
  | nil : error
  | errorString (s : String) : error
  | httpError (Code : Int) (WrappedError : error) : error
  deriving DecidableEq, Repr

/-- The sentinel `io.EOF`. -/
def EOF : error := error.errorString "EOF"

/-- A zeroed byte slice, `make([]byte, n)`. -/
def make (n : Nat) : List Byte := List.replicate n 0

/-- The builtin `copy(dst, src)` as seen on the destination: the first
`min(len dst, len src)` bytes of `dst` are overwritten. -/
def copyInto (dst src : List Byte) : List Byte :=
  src.take dst.length ++ dst.drop src.length

/-- An `io.Reader` over a finite byte stream that hands its bytes out in
chunks: a `Read` never returns bytes of more than the first pending chunk.
With `eager` set the reader reports `io.EOF` together with the last bytes;
otherwise only the `Read` after the last byte reports it (as `bytes.Reader`
does). -/
structure Source where
  chunks : List (List Byte)
  eager : Bool
  deriving DecidableEq, Repr

/-- What one `Read` call returns: the bytes put at the front of the caller's
slice (`n` is their number) and the error. -/
structure ReadResult where
  data : List Byte
  err : error
  deriving DecidableEq, Repr

/-- `Read(p)` of a `Source` with `len(p) = k`, `k > 0`. -/
def Source.Read (s : Source) (k : Nat) : ReadResult × Source :=
  match s.chunks with
  | [] => (⟨[], EOF⟩, s)
  | c :: rest =>
    let rest' := if c.drop k = [] then rest else c.drop k :: rest
    (⟨c.take k, if s.eager ∧ rest' = [] then EOF else error.nil⟩, { s with chunks := rest' })

/-- The reader that delivers `bs` in one piece (a `bytes.Reader`). -/
def Source.ofBytes (bs : List Byte) : Source := ⟨if bs = [] then [] else [bs], false⟩

/-- The reader that delivers `bs` one byte per `Read`. -/
def Source.byteAtATime (bs : List Byte) : Source := ⟨bs.map fun b => [b], false⟩

/-! ## Go: `bufio.Reader` -/

/-- The constant `defaultBufSize` of package `bufio`. -/
def defaultBufSize : Nat := 4096

/-- A `bufio.Reader`: `size` is `len(b.buf)`, `buf` is the unread part
`b.buf[b.r:b.w]`, `rd` the underlying reader, `err` the pending error. -/
structure Reader where
  size : Nat
  buf : List Byte
  rd : Source
  err : error
  deriving DecidableEq, Repr

/-- The function `bufio.NewReader(rd)`. -/
def NewReader (rd : Source) : Reader := ⟨defaultBufSize, [], rd, error.nil⟩

/-- The method `(*bufio.Reader).Read(p)` with `len(p) = k`: reads at most once
from the underlying reader, and only when the buffer is empty.

* `k = 0`: returns `0, nil` when bytes are buffered, else `0, b.readErr()`
  (earlier releases of Go return `0, b.readErr()` in both cases);
* empty buffer with a pending error: `0, b.readErr()`;
* empty buffer and `k ≥ len(b.buf)`: one `Read` of the underlying reader
  straight into `p`, returned with its error;
* empty buffer otherwise: one `Read` of the underlying reader into `b.buf`
  (the error is kept pending); on `n = 0` returns `0, b.readErr()`;
* then copies as much of the buffer as fits into `p` and returns `n, nil`.

`b.readErr()` returns the pending error and clears it. -/
def Reader.Read (b : Reader) (k : Nat) : ReadResult × Reader :=
  if k = 0 then
    if b.buf.length > 0 then (⟨[], error.nil⟩, b)
    else (⟨[], b.err⟩, { b with err := error.nil })
  else if b.buf = [] then
    if b.err ≠ error.nil then (⟨[], b.err⟩, { b with err := error.nil })
    else if k ≥ b.size then
      let r := b.rd.Read k
      (⟨r.1.data, r.1.err⟩, { b with rd := r.2, err := error.nil })
    else
      let r := b.rd.Read b.size
      if r.1.data = [] then (⟨[], r.1.err⟩, { b with rd := r.2, err := error.nil })
      else (⟨r.1.data.take k, error.nil⟩, { b with buf := r.1.data.drop k, rd := r.2, err := r.1.err })
  else
    (⟨b.buf.take k, error.nil⟩, { b with buf := b.buf.drop k })

/-! ## Go: `encoding/binary` -/

/-- The conversion `uint32(n)` of a Go `int`. -/
def uint32 (n : Nat) : Nat := n % 2 ^ 32

/-- The call `binary.LittleEndian.PutUint32(b, v)` on a 4-byte slice. -/
def PutUint32 (v : Nat) : List Byte :=
  [Fin.ofNat v, Fin.ofNat (v / 2 ^ 8), Fin.ofNat (v / 2 ^ 16), Fin.ofNat (v / 2 ^ 24)]

/-- The call `binary.LittleEndian.Uint32(b)`: reads `b[0..3]`. -/
def Uint32 (b : List Byte) : Nat :=
  (b.getD 0 0).val + (b.getD 1 0).val * 2 ^ 8 + (b.getD 2 0).val * 2 ^ 16 + (b.getD 3 0).val * 2 ^ 24

/-! ## `proto_over_http.go`: the frame codec -/

/-- The constant `numBytesForMessageLength`. -/
def numBytesForMessageLength : Nat := 4

/-- The function `serializeAsPayload`: the payload behind its length as a 4-byte
little-endian `uint32`; the error is always nil. -/
def serializeAsPayload (messageContentsInBytes : List Byte) : List Byte × error :=
  let lengthOfThePayload := uint32 messageContentsInBytes.length
  let messageLengthInBytes := copyInto (make numBytesForMessageLength) (PutUint32 lengthOfThePayload)
  (messageLengthInBytes ++ messageContentsInBytes, error.nil)

/-- The function `deserializePayloadFromReader`: one `Read` for the length (its
count and error are dropped), one `Read` for the payload (its count is
dropped); returns the whole `messageLength`-byte slice and the second `Read`'s
error, next to the reader as it is left. -/
def deserializePayloadFromReader (reader : Reader) : (List Byte × error) × Reader :=
  let r1 := reader.Read numBytesForMessageLength
  let messageLengthInBytes := copyInto (make numBytesForMessageLength) r1.1.data
  let messageLength := Uint32 messageLengthInBytes
  let r2 := r1.2.Read messageLength
  let messageContentsInBytes := copyInto (make messageLength) r2.1.data
  ((messageContentsInBytes, r2.1.err), r2.2)

/-! ## Go: error texts, `net/http` -/

/-- What the verb `%v` of package `fmt` prints for an `error` operand: `<nil>`
for nil, else the text of its `Error()` method; for `httpError` that method is
`fmt.Sprintf("HTTP error, status Code [%d], wrapped error is: %v", e.Code, e.WrappedError)`. -/
def error.text : error → String
  | error.nil => "<nil>"
  | error.errorString s => s
  | error.httpError Code WrappedError =>
    "HTTP error, status Code [" ++ toString Code ++ "], wrapped error is: " ++ WrappedError.text

/-- The method call `e.Error()`: a nil interface has no method to call and the
program panics (`none`). -/
def error.Error (e : error) : Option String :=
  if e = error.nil then none else some e.text

/-- A `http.Header`: key to its values. `Set` and `Get` both bring the key they
are given to its canonical form first, so a key stands here for its canonical
form. -/
abbrev Header := List (String × List String)

/-- The method `Header.Get`: the first value of the key, or the empty string. -/
def Header.Get (h : Header) (key : String) : String :=
  match h.lookup key with
  | some (v :: _) => v
  | _ => ""

/-- The method `Header.Set`: the key now has the one value. -/
def Header.Set (h : Header) (key value : String) : Header :=
  (key, [value]) :: h.filter fun kv => kv.1 != key

/-- A `http.ResponseWriter`: the header map, the status code once it has been
committed, the body bytes written so far, and the error its `Write` answers
with (nil: the bytes are written). -/
structure ResponseWriter where
  header : Header
  status : Option Int
  body : List Byte
  writeErr : error
  deriving DecidableEq, Repr

/-- The constant `http.StatusOK`. -/
def StatusOK : Int := 200

/-- The constant `http.StatusInternalServerError`. -/
def StatusInternalServerError : Int := 500

/-- The constant `http.StatusBadRequest`. -/
def StatusBadRequest : Int := 400

/-- The method `ResponseWriter.Write(data)`: "if WriteHeader has not yet been
called, Write calls WriteHeader(http.StatusOK) before writing the data". -/
def ResponseWriter.Write (w : ResponseWriter) (data : List Byte) : error × ResponseWriter :=
  let w1 := { w with status := some (w.status.getD StatusOK) }
  if w.writeErr = error.nil then (error.nil, { w1 with body := w1.body ++ data })
  else (w.writeErr, w1)

/-- A response body (`io.ReadCloser`). -/
structure ReadCloser where
  rd : Source
  closed : Bool
  deriving DecidableEq, Repr

/-- A `http.Response` as the client reads it. -/
structure Response where
  Header : Header
  Body : ReadCloser
  deriving DecidableEq, Repr

/-- Modelled from the spec: the generated message type `pb.ApiError` ("a
serialized `{ error: string }` message"), whose declaration is not among the
sources. -/
structure ApiError where
  Error : String
  deriving DecidableEq, Repr

/-- The library functions the code calls and whose tables and encodings are
not part of the repository: `http.StatusText`, and `proto.Marshal` /
`proto.Unmarshal` at the message type `pb.ApiError`. -/
structure Lib where
  StatusText : Int → String
  Marshal : ApiError → List Byte × error
  Unmarshal : List Byte → ApiError × error

/-! ## `proto_over_http.go`: the error envelope -/

/-- The constant `errorHeader`. -/
def errorHeader : String := "conduit-error"

/-- The constant `defaultHttpErrorStatusCode`. -/
def defaultHttpErrorStatusCode : Int := StatusInternalServerError

/-- The constant `contentTypeHeader`. -/
def contentTypeHeader : String := "Content-Type"

/-- The constant `protobufContentType`. -/
def protobufContentType : String := "application/octet-stream"

/-- The function `writeProtoToHttpResponse` at the message type `pb.ApiError`. -/
def writeProtoToHttpResponse (lib : Lib) (w : ResponseWriter) (msg : ApiError) :
    error × ResponseWriter :=
  let w1 := { w with header := w.header.Set contentTypeHeader protobufContentType }
  let m := lib.Marshal msg
  if m.2 ≠ error.nil then (m.2, w1)
  else
    let p := serializeAsPayload m.1
    if p.2 ≠ error.nil then (p.2, w1)
    else w1.Write p.1

/-- The function `writeErrorToHttpResponse`; `none` is the panic of calling
`Error()` on a nil error. -/
def writeErrorToHttpResponse (lib : Lib) (w : ResponseWriter) (errorObtained : error) :
    Option ResponseWriter :=
  let choice : Int × error :=
    match errorObtained with
    | error.httpError Code WrappedError => (Code, WrappedError)
    | _ => (defaultHttpErrorStatusCode, errorObtained)
  let statusCode := choice.1
  let errorToReturn := choice.2
  let w1 := { w with header := w.header.Set errorHeader (lib.StatusText statusCode) }
  match errorToReturn.Error with
  | none => none
  | some t =>
    let errorAsProto : ApiError := ⟨t⟩
    let r := writeProtoToHttpResponse lib w1 errorAsProto
    if r.1 ≠ error.nil then
      match r.1.Error with
      | none => none
      | some s => some { r.2 with header := r.2.header.Set errorHeader s }
    else some r.2

/-- Modelled from the spec: `fromByteStreamToProtocolBuffers`, called by
`checkIfResponseHasConduitError` and defined in a file that is not among the
sources; it is `deserializePayloadFromReader` followed by unmarshalling, and
an error of either step is the error returned. -/
def fromByteStreamToProtocolBuffers (lib : Lib) (reader : Reader) : (ApiError × error) × Reader :=
  let d := deserializePayloadFromReader reader
  if d.1.2 ≠ error.nil then ((⟨""⟩, d.1.2), d.2)
  else (lib.Unmarshal d.1.1, d.2)

/-- The function `checkIfResponseHasConduitError`: the error returned and the
response as it is left (the body as the reads made through the `bufio.Reader`
leave it, and whether it was closed). `readMessage` is the callee
`fromByteStreamToProtocolBuffers`, which is not among the sources: it is given
the new `bufio.Reader` and answers with the message read into `apiError`, its
error, and the reader as it leaves it. -/
def checkIfResponseHasConduitError (readMessage : Reader → (ApiError × error) × Reader)
    (rsp : Response) : error × Response :=
  let errorMsg := rsp.Header.Get errorHeader
  if errorMsg ≠ "" then
    let reader := NewReader rsp.Body.rd
    let r := readMessage reader
    let rsp1 : Response := { rsp with Body := ⟨r.2.rd, true⟩ }
    if r.1.2 ≠ error.nil then
      (error.errorString ("response is Conduit error header [" ++ errorMsg ++
        "], but response body didn\x27t contain protobuf error: " ++ r.1.2.text), rsp1)
    else (error.errorString r.1.1.Error, rsp1)
  else (error.nil, rsp)

/-! ## `replicasets.go`: owner resolution -/

/-- A `metav1.OwnerReference`, the fields the code reads. -/
structure OwnerReference where
  Kind : String
  Name : String
  deriving DecidableEq, Repr

/-- A `v1.Pod`, the fields the code reads. -/
structure Pod where
  Namespace : String
  Name : String
  OwnerReferences : List OwnerReference
  deriving DecidableEq, Repr

/-- A `v1beta1.ReplicaSet`, the fields the code reads. -/
structure ReplicaSet where
  Name : String
  OwnerReferences : List OwnerReference
  deriving DecidableEq, Repr

/-- An object held by a `cache.Store`: a `*v1beta1.ReplicaSet`, or a value of
another type, given by what `%v` prints for it. -/
inductive Item where
  | replicaSet (rs : ReplicaSet) : Item
  | other (shown : String) : Item
  deriving DecidableEq, Repr

/-- What `cache.Store.GetByKey` returns: `item, exists, err`. -/
structure Lookup where
  item : Option Item
  found : Bool
  err : error
  deriving DecidableEq, Repr

/-- A `ReplicaSetStore`, seen through `(*p.store).GetByKey`. -/
structure ReplicaSetStore where
  GetByKey : String → Lookup

/-- The method `ReplicaSetStore.GetReplicaSet`: the `*ReplicaSet`, or the error
(the Go result is `rs, nil` or `nil, err`). -/
def ReplicaSetStore.GetReplicaSet (p : ReplicaSetStore) (key : String) : Except error ReplicaSet :=
  let r := p.GetByKey key
  if r.err ≠ error.nil then Except.error r.err
  else if !r.found then Except.error (error.errorString ("no ReplicaSet exists for name " ++ key))
  else
    match r.item with
    | some (Item.replicaSet rs) => Except.ok rs
    | some (Item.other shown) => Except.error (error.errorString (shown ++ " is not a ReplicaSet"))
    | none => Except.error (error.errorString ("<nil>" ++ " is not a ReplicaSet"))

/-- The method `ReplicaSetStore.GetDeploymentForPod`: the string and the error
returned. -/
def ReplicaSetStore.GetDeploymentForPod (p : ReplicaSetStore) (pod : Pod) : String × error :=
  let namespace_ := pod.Namespace
  match pod.OwnerReferences with
  | [] => ("", error.errorString ("Pod " ++ pod.Name ++ " has no owner"))
  | parent :: _ =>
    if parent.Kind = "ReplicaSet" then
      let rsName := namespace_ ++ "/" ++ parent.Name
      match p.GetReplicaSet rsName with
      | Except.error err => ("", err)
      | Except.ok rs =>
        match rs.OwnerReferences with
        | [] => (namespace_ ++ "/" ++ rsName, error.nil)
        | owner :: _ => (namespace_ ++ "/" ++ owner.Name, error.nil)
    else (namespace_ ++ "/" ++ parent.Name, error.nil)

/-! ## An instance of the library functions -/

/-- The function `http.StatusText`, the table of `net/http/status.go` as of
Go 1.9 (later releases add the codes 103, 421 and 425): the empty string for a
code that is not in the table. -/
def StatusText (code : Int) : String :=
  match code with
  | 100 => "Continue"
  | 101 => "Switching Protocols"
  | 102 => "Processing"
  | 200 => "OK"
  | 201 => "Created"
  | 202 => "Accepted"
  | 203 => "Non-Authoritative Information"
  | 204 => "No Content"
  | 205 => "Reset Content"
  | 206 => "Partial Content"
  | 207 => "Multi-Status"
  | 208 => "Already Reported"
  | 226 => "IM Used"
  | 300 => "Multiple Choices"
  | 301 => "Moved Permanently"
  | 302 => "Found"
  | 303 => "See Other"
  | 304 => "Not Modified"
  | 305 => "Use Proxy"
  | 307 => "Temporary Redirect"
  | 308 => "Permanent Redirect"
  | 400 => "Bad Request"
  | 401 => "Unauthorized"
  | 402 => "Payment Required"
  | 403 => "Forbidden"
  | 404 => "Not Found"
  | 405 => "Method Not Allowed"
  | 406 => "Not Acceptable"
  | 407 => "Proxy Authentication Required"
  | 408 => "Request Timeout"
  | 409 => "Conflict"
  | 410 => "Gone"
  | 411 => "Length Required"
  | 412 => "Precondition Failed"
  | 413 => "Request Entity Too Large"
  | 414 => "Request URI Too Long"
  | 415 => "Unsupported Media Type"
  | 416 => "Requested Range Not Satisfiable"
  | 417 => "Expectation Failed"
  | 418 => "I\x27m a teapot"
  | 422 => "Unprocessable Entity"
  | 423 => "Locked"
  | 424 => "Failed Dependency"
  | 426 => "Upgrade Required"
  | 428 => "Precondition Required"
  | 429 => "Too Many Requests"
  | 431 => "Request Header Fields Too Large"
  | 451 => "Unavailable For Legal Reasons"
  | 500 => "Internal Server Error"
  | 501 => "Not Implemented"
  | 502 => "Bad Gateway"
  | 503 => "Service Unavailable"
  | 504 => "Gateway Timeout"
  | 505 => "HTTP Version Not Supported"
  | 506 => "Variant Also Negotiates"
  | 507 => "Insufficient Storage"
  | 508 => "Loop Detected"
  | 510 => "Not Extended"
  | 511 => "Network Authentication Required"
  | _ => ""

/-- The bytes of a character in UTF-8. -/
def utf8Char (c : Char) : List Byte :=
  let n := c.toNat
  if n < 0x80 then [Fin.ofNat n]
  else if n < 0x800 then [Fin.ofNat (0xC0 + n / 64), Fin.ofNat (0x80 + n % 64)]
  else if n < 0x10000 then
    [Fin.ofNat (0xE0 + n / 4096), Fin.ofNat (0x80 + n / 64 % 64), Fin.ofNat (0x80 + n % 64)]
  else
    [Fin.ofNat (0xF0 + n / 262144), Fin.ofNat (0x80 + n / 4096 % 64),
      Fin.ofNat (0x80 + n / 64 % 64), Fin.ofNat (0x80 + n % 64)]

/-- The bytes of a Go string: its text in UTF-8. -/
def utf8 (s : String) : List Byte := s.data.flatMap utf8Char

/-- Reads UTF-8 back; `none` for bytes that are not UTF-8. -/
def utf8Decode : List Byte → Option (List Char)
  | [] => some []
  | b0 :: rest =>
    if b0.val < 0x80 then (utf8Decode rest).map fun cs => Char.ofNat b0.val :: cs
    else if b0.val < 0xC0 then none
    else if b0.val < 0xE0 then
      match rest with
      | b1 :: rest1 =>
        (utf8Decode rest1).map fun cs => Char.ofNat ((b0.val - 0xC0) * 64 + b1.val % 64) :: cs
      | _ => none
    else if b0.val < 0xF0 then
      match rest with
      | b1 :: b2 :: rest2 =>
        (utf8Decode rest2).map fun cs =>
          Char.ofNat ((b0.val - 0xE0) * 4096 + b1.val % 64 * 64 + b2.val % 64) :: cs
      | _ => none
    else
      match rest with
      | b1 :: b2 :: b3 :: rest3 =>
        (utf8Decode rest3).map fun cs =>
          Char.ofNat ((b0.val - 0xF0) * 262144 + b1.val % 64 * 4096 + b2.val % 64 * 64 + b3.val % 64) :: cs
      | _ => none

/-- A protobuf varint: base 128, least significant group first; `fuel` bounds
the number of groups (ten hold a `uint64`). -/
def varintAux : Nat → Nat → List Byte
  | 0, _ => []
  | fuel + 1, n => if n < 128 then [Fin.ofNat n] else Fin.ofNat (128 + n % 128) :: varintAux fuel (n / 128)

/-- The varint of `n`. -/
def varint (n : Nat) : List Byte := varintAux 10 n

/-- Reads a varint off the front of the bytes: its value and what follows. -/
def readVarint : List Byte → Option (Nat × List Byte)
  | [] => none
  | b :: rest =>
    if b.val < 128 then some (b.val, rest)
    else (readVarint rest).map fun r => (b.val - 128 + 128 * r.1, r.2)

/-- The function `proto.Marshal` at `pb.ApiError`, a proto3 message with the one
field `string error = 1`: nothing for the empty string, else the tag byte
`0x0A`, the length as a varint and the text. -/
def MarshalApiError (m : ApiError) : List Byte × error :=
  if m.Error = "" then ([], error.nil)
  else (10 :: (varint (utf8 m.Error).length ++ utf8 m.Error), error.nil)

/-- The function `proto.Unmarshal` at `pb.ApiError`, on the encodings
`MarshalApiError` produces: the empty message, or the one field 1 filling the
rest of the bytes. Bytes of any other shape are reported as an error. -/
def UnmarshalApiError (bs : List Byte) : ApiError × error :=
  match bs with
  | [] => (⟨""⟩, error.nil)
  | tag :: rest =>
    if tag.val = 10 then
      match readVarint rest with
      | some (n, text) =>
        if text.length = n then
          match utf8Decode text with
          | some cs => (⟨String.mk cs⟩, error.nil)
          | none => (⟨""⟩, error.errorString "proto: invalid UTF-8 string")
        else (⟨""⟩, error.errorString "proto: unexpected end of message")
      | none => (⟨""⟩, error.errorString "proto: unexpected end of message")
    else (⟨""⟩, error.errorString "proto: unexpected field")

/-- The library functions as instantiated above. -/
def wireLib : Lib := ⟨StatusText, MarshalApiError, UnmarshalApiError⟩

/-- A response writer to which no header, status or byte has been written and
whose writes succeed. -/
def freshWriter : ResponseWriter := ⟨[], none, [], error.nil⟩

/-- The response a client reads once `w` has been sent: the headers of `w`, and
a body that delivers the bytes of `w` in the given chunks. -/
def responseOf (w : ResponseWriter) (chunks : List (List Byte)) : Response :=
  ⟨w.header, ⟨⟨chunks, false⟩, false⟩⟩

/-! ## The frame codec: what `serializeAsPayload` writes -/

theorem Uint32_PutUint32 (v : Nat) (h : v < 2 ^ 32) : Uint32 (PutUint32 v) = v := by
  simp [Uint32, PutUint32, Fin.ofNat]
  omega

theorem copyInto_make_PutUint32 (v : Nat) :
    copyInto (make numBytesForMessageLength) (PutUint32 v) = PutUint32 v := by
  simp [copyInto, make, numBytesForMessageLength, PutUint32]

theorem serializeAsPayload_eq (P : List Byte) :
    serializeAsPayload P = (PutUint32 (P.length % 2 ^ 32) ++ P, error.nil) := by
  simp [serializeAsPayload, copyInto_make_PutUint32, uint32]

/-- C2: for a payload of fewer than 2^32 bytes `serializeAsPayload` returns no
error and 4 + len(P) bytes: the length as a little-endian uint32 (which reads
back as len(P)), then the payload itself; the empty payload gives the four
bytes 00 00 00 00. -/
theorem serializeAsPayload_wire_format (P : List Byte) (h : P.length < 2 ^ 32) :
    (serializeAsPayload P).2 = error.nil ∧
    (serializeAsPayload P).1.length = 4 + P.length ∧
    ((serializeAsPayload P).1.take 4).map Fin.val =
      [P.length % 256, P.length / 256 % 256, P.length / 65536 % 256, P.length / 16777216 % 256] ∧
    Uint32 ((serializeAsPayload P).1.take 4) = P.length ∧
    (serializeAsPayload P).1.drop 4 = P ∧
    (serializeAsPayload []).1 = [0, 0, 0, 0] := by
  have hm : P.length % 2 ^ 32 = P.length := Nat.mod_eq_of_lt h
  rw [serializeAsPayload_eq, hm]
  refine ⟨rfl, ?_, ?_, ?_, ?_, ?_⟩
  · simp [PutUint32]; omega
  · simp [PutUint32, Fin.ofNat]
  · have : (PutUint32 P.length ++ P).take 4 = PutUint32 P.length := by simp [PutUint32]
    simp only [this]
    exact Uint32_PutUint32 _ h
  · simp [PutUint32]
  · decide

/-- Witness of C2 at the three-byte payload 01 02 03. -/
theorem serializeAsPayload_wire_format_witness :
    (serializeAsPayload [1, 2, 3]).2 = error.nil ∧
    (serializeAsPayload [1, 2, 3]).1.length = 4 + 3 ∧
    (serializeAsPayload [1, 2, 3]).1 = [3, 0, 0, 0, 1, 2, 3] :=
  ⟨(serializeAsPayload_wire_format [1, 2, 3] (by decide)).1,
   (serializeAsPayload_wire_format [1, 2, 3] (by decide)).2.1, by decide⟩

/-! ## The frame codec: what `deserializePayloadFromReader` reads -/

/-- The first `Read` of `deserializePayloadFromReader` on a stream that holds a
length prefix and then `D`, delivered in one piece to a new `bufio.Reader`:
the prefix is returned and the buffer keeps what it could take of `D`. -/
theorem Read_prefix_ofBytes (L : Nat) (D : List Byte) :
    (NewReader (Source.ofBytes (PutUint32 L ++ D))).Read numBytesForMessageLength =
      (⟨PutUint32 L, error.nil⟩,
        ⟨defaultBufSize, D.take (defaultBufSize - 4),
          ⟨if (PutUint32 L ++ D).drop defaultBufSize = [] then []
            else [(PutUint32 L ++ D).drop defaultBufSize], false⟩, error.nil⟩) := by
  have hne : PutUint32 L ++ D ≠ [] := by simp [PutUint32]
  have htake : ((PutUint32 L ++ D).take 4096).take 4 = PutUint32 L := by
    simp [PutUint32, List.take_take]
  have hdrop : ((PutUint32 L ++ D).take 4096).drop 4 = D.take 4092 := by
    simp [PutUint32, List.drop_take]
  simp only [NewReader, Source.ofBytes, if_neg hne, Reader.Read, Source.Read, numBytesForMessageLength]
  simp [htake, hdrop, hne, defaultBufSize]

/-- A stream that declares `L` bytes, holds the bytes `D` after the prefix and
is delivered in one piece, as `deserializePayloadFromReader` reads it through a
new `bufio.Reader`. With `D` not empty the result is what the buffer held of
`D`, cut or filled with zeros to `L` bytes, and a nil error. -/
theorem deserialize_ofBytes_prefixed (L : Nat) (D : List Byte) (hL : L < 2 ^ 32) (hD : D ≠ []) :
    (deserializePayloadFromReader (NewReader (Source.ofBytes (PutUint32 L ++ D)))).1 =
      (copyInto (make L) ((D.take (defaultBufSize - 4)).take L), error.nil) := by
  have hU := Uint32_PutUint32 L hL
  have hb : D.take (defaultBufSize - 4) ≠ [] := by
    cases D with
    | nil => exact absurd rfl hD
    | cons d ds => simp [defaultBufSize]
  simp only [deserializePayloadFromReader, Read_prefix_ofBytes, copyInto_make_PutUint32, hU]
  by_cases h0 : L = 0
  · subst h0
    have hlen : 0 < (D.take (defaultBufSize - 4)).length := List.length_pos.mpr hb
    simp [Reader.Read, copyInto, make, hlen]
  · simp [Reader.Read, h0, hb]

/-- A frame delivered in one piece to a new `bufio.Reader` is decoded up to
the buffer: the payload bytes that did not fit into the first buffered read
are left as the zeros of `make`, and no error is returned. -/
theorem deserialize_ofBytes_frame (P : List Byte) (h : P.length < 2 ^ 32) :
    (deserializePayloadFromReader (NewReader (Source.ofBytes (serializeAsPayload P).1))).1 =
      (P.take (defaultBufSize - 4) ++ List.replicate (P.length - (defaultBufSize - 4)) 0, error.nil) := by
  have hm : P.length % 2 ^ 32 = P.length := Nat.mod_eq_of_lt h
  rw [serializeAsPayload_eq, hm]
  by_cases hP : P = []
  · subst hP
    decide
  · rw [deserialize_ofBytes_prefixed P.length P h hP]
    simp only [copyInto, make, List.length_replicate, List.take_take, List.length_take,
      List.drop_replicate, defaultBufSize]
    rcases Nat.le_total P.length 4092 with hle | hle
    · simp [Nat.min_eq_left hle, List.take_of_length_le hle, Nat.sub_eq_zero_of_le hle]
    · simp [Nat.min_eq_right hle, Nat.min_eq_left hle]

/-- Truncation in general: a stream that declares `L` bytes, delivers in one
piece `k` payload bytes with `0 < k < L` (and `k` within the buffer) and then
ends, is decoded without error as those bytes followed by `L - k` zeros. -/
theorem deserialize_truncated_zero_padded (L : Nat) (D : List Byte) (hL : L < 2 ^ 32)
    (hD : D ≠ []) (hk : D.length < L) (hfit : D.length ≤ defaultBufSize - 4) :
    (deserializePayloadFromReader (NewReader (Source.ofBytes (PutUint32 L ++ D)))).1 =
      (D ++ List.replicate (L - D.length) 0, error.nil) := by
  rw [deserialize_ofBytes_prefixed L D hL hD]
  simp [copyInto, make, List.take_of_length_le hfit, List.take_of_length_le (Nat.le_of_lt hk)]

/-- Round trip within the buffer: a payload of at most `defaultBufSize - 4`
bytes, framed and delivered in one piece, is read back as it was. -/
theorem deserialize_serialize_within_buffer (P : List Byte) (h : P.length ≤ defaultBufSize - 4) :
    (deserializePayloadFromReader (NewReader (Source.ofBytes (serializeAsPayload P).1))).1 =
      (P, error.nil) := by
  have h32 : P.length < 2 ^ 32 := by
    simp only [defaultBufSize] at h
    omega
  rw [deserialize_ofBytes_frame P h32, List.take_of_length_le h, Nat.sub_eq_zero_of_le h]
  simp

/-- C1, at a payload of 4093 bytes 01 framed and delivered in one piece to
`bufio.NewReader`: the second `Read` returns the 4092 bytes the buffer holds,
and the result is those followed by a zero byte, with a nil error; it is not
the payload. -/
theorem deserialize_large_payload_zero_padded :
    (deserializePayloadFromReader
      (NewReader (Source.ofBytes (serializeAsPayload (List.replicate 4093 1)).1))).1 =
        (List.replicate 4092 1 ++ [0], error.nil) ∧
    (deserializePayloadFromReader
      (NewReader (Source.ofBytes (serializeAsPayload (List.replicate 4093 1)).1))).1 ≠
        (List.replicate 4093 1, error.nil) := by
  have hlen : (List.replicate 4093 (1 : Byte)).length < 2 ^ 32 := by
    rw [List.length_replicate]; norm_num
  have hval := deserialize_ofBytes_frame (List.replicate 4093 1) hlen
  have hres : List.take (defaultBufSize - 4) (List.replicate 4093 (1 : Byte)) ++
      List.replicate ((List.replicate 4093 (1 : Byte)).length - (defaultBufSize - 4)) 0 =
      List.replicate 4092 1 ++ [0] := by
    have e1 : defaultBufSize - 4 = 4092 := rfl
    have e2 : min 4092 4093 = 4092 := by decide
    have e3 : 4093 - 4092 = 1 := by decide
    have e4 : List.replicate 1 (0 : Byte) = [0] := rfl
    rw [e1, List.take_replicate, List.length_replicate, e2, e3, e4]
  rw [hres] at hval
  refine ⟨hval, ?_⟩
  rw [hval]
  intro hEq
  have h2 : List.replicate 4092 (1 : Byte) ++ [0] = List.replicate 4092 1 ++ [1] := by
    rw [(Prod.mk.inj hEq).1]
    exact List.replicate_succ' 4092 1
  have h3 := List.append_cancel_left h2
  exact absurd h3 (by decide)

/-- The frame of the empty payload, delivered by a reader that reports `io.EOF`
together with its last bytes: the pending `io.EOF` comes back from the
zero-length second `Read`, and the empty payload is returned with an error. -/
theorem deserialize_empty_frame_eager_eof :
    (deserializePayloadFromReader (NewReader ⟨[(serializeAsPayload []).1], true⟩)).1 = ([], EOF) := by
  decide

/-- C3, at the payload 07 with a stream that delivers one byte per `Read`: the
length is taken from the first byte alone and the payload from the second byte
of the prefix, so the result is the byte 00 with a nil error, not 07. -/
theorem deserialize_byteAtATime_garbled :
    (serializeAsPayload [7]).1 = [1, 0, 0, 0, 7] ∧
    (deserializePayloadFromReader (NewReader (Source.byteAtATime (serializeAsPayload [7]).1))).1 =
      ([0], error.nil) := by
  decide

/-- C4, at a declared length of 100 followed by 50 payload bytes 09 and the end
of the stream: the result is a 100-byte slice, the 50 bytes and 50 zeros, with
a nil error. -/
theorem deserialize_truncated_payload_no_error :
    (deserializePayloadFromReader
      (NewReader (Source.ofBytes (PutUint32 100 ++ List.replicate 50 9)))).1 =
        (List.replicate 50 9 ++ List.replicate 50 0, error.nil) := by
  decide

/-- C5, at a stream that ends with no byte at all, and at a stream that ends
after the single byte 00: the `io.EOF` of the first `Read` is dropped, the
length reads as 0, and the result is the empty payload with a nil error. -/
theorem deserialize_end_of_stream_is_empty_frame :
    (deserializePayloadFromReader (NewReader (Source.ofBytes []))).1 = ([], error.nil) ∧
    (deserializePayloadFromReader (NewReader (Source.ofBytes [0]))).1 = ([], error.nil) := by
  decide

/-! ## The error envelope -/

theorem Header.lookup_filter_ne (h : Header) (k k2 : String) (hk : k2 ≠ k) :
    List.lookup k2 (h.filter fun kv => kv.1 != k) = List.lookup k2 h := by
  induction h with
  | nil => rfl
  | cons kv t ih =>
    obtain ⟨a, vs⟩ := kv
    by_cases ha : a = k
    · subst ha
      have hne : (k2 == a) = false := by simpa using hk
      simp [List.filter, List.lookup, hne, ih]
    · have hf : (a != k) = true := by simpa using ha
      simp only [List.filter, hf, List.lookup, ih]

theorem Header.Get_Set_same (h : Header) (k v : String) : (h.Set k v).Get k = v := by
  simp [Header.Set, Header.Get, List.lookup]

theorem Header.Get_Set_ne (h : Header) (k k2 v : String) (hk : k2 ≠ k) :
    (h.Set k v).Get k2 = h.Get k2 := by
  have hne : (k2 == k) = false := by simpa using hk
  simp only [Header.Set, Header.Get, List.lookup, hne]
  rw [Header.lookup_filter_ne h k k2 hk]

theorem serializeAsPayload_snd (P : List Byte) : (serializeAsPayload P).2 = error.nil := rfl

/-- What `writeErrorToHttpResponse` does once the error to report and the
status code are chosen, when the message marshals and the write succeeds. -/
theorem writeProto_after_errorHeader (lib : Lib) (w : ResponseWriter) (st t : String)
    (hm : (lib.Marshal ⟨t⟩).2 = error.nil) (hw : w.writeErr = error.nil) :
    writeProtoToHttpResponse lib { w with header := w.header.Set errorHeader st } ⟨t⟩ =
      (error.nil,
        { header := (w.header.Set errorHeader st).Set contentTypeHeader protobufContentType,
          status := some (w.status.getD StatusOK),
          body := w.body ++ (serializeAsPayload (lib.Marshal ⟨t⟩).1).1,
          writeErr := w.writeErr }) := by
  simp [writeProtoToHttpResponse, hm, serializeAsPayload_snd, ResponseWriter.Write, hw]

theorem error.Error_of_ne_nil (e : error) (h : e ≠ error.nil) : e.Error = some e.text := by
  simp [error.Error, h]

/-- The response writer `writeErrorToHttpResponse` leaves when the error to
report is not nil, the message marshals and the write succeeds. -/
theorem writeError_result (lib : Lib) (w : ResponseWriter) (e shown : error) (code : Int)
    (hc : (match e with
      | error.httpError Code WrappedError => (Code, WrappedError)
      | _ => (defaultHttpErrorStatusCode, e)) = (code, shown))
    (hs : shown ≠ error.nil)
    (hm : (lib.Marshal ⟨shown.text⟩).2 = error.nil) (hw : w.writeErr = error.nil) :
    writeErrorToHttpResponse lib w e = some
      { header := (w.header.Set errorHeader (lib.StatusText code)).Set contentTypeHeader protobufContentType,
        status := some (w.status.getD StatusOK),
        body := w.body ++ (serializeAsPayload (lib.Marshal ⟨shown.text⟩).1).1,
        writeErr := w.writeErr } := by
  unfold writeErrorToHttpResponse
  simp only [hc, error.Error_of_ne_nil shown hs]
  rw [writeProto_after_errorHeader lib w _ _ hm hw]
  simp

theorem errorHeader_ne_contentTypeHeader : errorHeader ≠ contentTypeHeader := by decide

/-- C6 (amended): when the write succeeds and the message marshals, after
`writeErrorToHttpResponse(w, e)` the header conduit-error is the status text of
the chosen code (500, or `e.Code` for an `httpError`), Content-Type is
application/octet-stream, and the body has grown by exactly one frame,
`serializeAsPayload(marshal(ApiError{Error: t}))`, where `t` is `e.Error()` for
an error that is not an `httpError` and `e.WrappedError.Error()` for an
`httpError` (whose wrapped error is not nil). -/
theorem writeError_envelope_shape (lib : Lib) (w : ResponseWriter) (hw : w.writeErr = error.nil) :
    (∀ s : String, (lib.Marshal ⟨s⟩).2 = error.nil →
      ∃ w2, writeErrorToHttpResponse lib w (error.errorString s) = some w2 ∧
        w2.header.Get errorHeader = lib.StatusText StatusInternalServerError ∧
        w2.header.Get contentTypeHeader = protobufContentType ∧
        w2.body = w.body ++ (serializeAsPayload (lib.Marshal ⟨s⟩).1).1) ∧
    (∀ (Code : Int) (WrappedError : error), WrappedError ≠ error.nil →
      (lib.Marshal ⟨WrappedError.text⟩).2 = error.nil →
      ∃ w2, writeErrorToHttpResponse lib w (error.httpError Code WrappedError) = some w2 ∧
        w2.header.Get errorHeader = lib.StatusText Code ∧
        w2.header.Get contentTypeHeader = protobufContentType ∧
        w2.body = w.body ++ (serializeAsPayload (lib.Marshal ⟨WrappedError.text⟩).1).1) := by
  constructor
  · intro s hm
    refine ⟨_, writeError_result lib w (error.errorString s) (error.errorString s)
      defaultHttpErrorStatusCode rfl (by simp) hm hw, ?_, ?_, rfl⟩
    · rw [Header.Get_Set_ne _ _ _ _ errorHeader_ne_contentTypeHeader, Header.Get_Set_same]
      rfl
    · rw [Header.Get_Set_same]
  · intro Code WrappedError hne hm
    refine ⟨_, writeError_result lib w (error.httpError Code WrappedError) WrappedError
      Code rfl hne hm hw, ?_, ?_, rfl⟩
    · rw [Header.Get_Set_ne _ _ _ _ errorHeader_ne_contentTypeHeader, Header.Get_Set_same]
    · rw [Header.Get_Set_same]

/-- Witness of C6 (amended): the plain error "boom" and the `httpError` with
code 400 wrapping it, written to a fresh response writer. -/
theorem writeError_envelope_shape_witness :
    (∃ w2, writeErrorToHttpResponse wireLib freshWriter (error.errorString "boom") = some w2 ∧
      w2.header.Get errorHeader = wireLib.StatusText StatusInternalServerError ∧
      w2.header.Get contentTypeHeader = protobufContentType ∧
      w2.body = freshWriter.body ++ (serializeAsPayload (wireLib.Marshal ⟨"boom"⟩).1).1) ∧
    (∃ w2, writeErrorToHttpResponse wireLib freshWriter
        (error.httpError 400 (error.errorString "boom")) = some w2 ∧
      w2.header.Get errorHeader = wireLib.StatusText 400 ∧
      w2.header.Get contentTypeHeader = protobufContentType ∧
      w2.body = freshWriter.body ++
        (serializeAsPayload (wireLib.Marshal ⟨(error.errorString "boom").text⟩).1).1) :=
  ⟨(writeError_envelope_shape wireLib freshWriter rfl).1 "boom" rfl,
   (writeError_envelope_shape wireLib freshWriter rfl).2 400 (error.errorString "boom")
     (by decide) rfl⟩

/-- C6, at the `httpError` with code 400 wrapping the error "boom": the frame
written holds the text "boom" of the wrapped error, not the text of `e.Error()`,
"HTTP error, status Code [400], wrapped error is: boom". -/
theorem writeError_httpError_frames_wrapped_text :
    (error.httpError 400 (error.errorString "boom")).Error =
      some "HTTP error, status Code [400], wrapped error is: boom" ∧
    (writeErrorToHttpResponse wireLib freshWriter
      (error.httpError 400 (error.errorString "boom"))).map (fun w => w.body) =
        some (serializeAsPayload (wireLib.Marshal ⟨"boom"⟩).1).1 ∧
    (writeErrorToHttpResponse wireLib freshWriter
      (error.httpError 400 (error.errorString "boom"))).map (fun w => w.body) ≠
        some (serializeAsPayload (wireLib.Marshal
          ⟨"HTTP error, status Code [400], wrapped error is: boom"⟩).1).1 := by
  decide

/-- C8 (amended): `writeErrorToHttpResponse` never calls `WriteHeader`. Called
on a response with no status yet, for an error whose text is reported (not
nil, and marshalling succeeds), it leaves the response with the status 200
that the first body write commits, whatever the chosen code (500, or `e.Code`
for an `httpError`); the chosen code only selects the text of the
conduit-error header. -/
theorem writeError_status_is_default (lib : Lib) (w : ResponseWriter) (h0 : w.status = none)
    (hw : w.writeErr = error.nil) :
    (∀ s : String, (lib.Marshal ⟨s⟩).2 = error.nil →
      ∃ w2, writeErrorToHttpResponse lib w (error.errorString s) = some w2 ∧
        w2.status = some StatusOK ∧
        w2.header.Get errorHeader = lib.StatusText StatusInternalServerError) ∧
    (∀ (Code : Int) (WrappedError : error), WrappedError ≠ error.nil →
      (lib.Marshal ⟨WrappedError.text⟩).2 = error.nil →
      ∃ w2, writeErrorToHttpResponse lib w (error.httpError Code WrappedError) = some w2 ∧
        w2.status = some StatusOK ∧
        w2.header.Get errorHeader = lib.StatusText Code) := by
  constructor
  · intro s hm
    refine ⟨_, writeError_result lib w (error.errorString s) (error.errorString s)
      defaultHttpErrorStatusCode rfl (by simp) hm hw, ?_, ?_⟩
    · simp [h0]
    · rw [Header.Get_Set_ne _ _ _ _ errorHeader_ne_contentTypeHeader, Header.Get_Set_same]
      rfl
  · intro Code WrappedError hne hm
    refine ⟨_, writeError_result lib w (error.httpError Code WrappedError) WrappedError
      Code rfl hne hm hw, ?_, ?_⟩
    · simp [h0]
    · rw [Header.Get_Set_ne _ _ _ _ errorHeader_ne_contentTypeHeader, Header.Get_Set_same]

/-- Witness of C8 (amended): the error "expected" and an `httpError` with code
400, each written to a fresh response writer. -/
theorem writeError_status_is_default_witness :
    (∃ w2, writeErrorToHttpResponse wireLib freshWriter (error.errorString "expected") = some w2 ∧
      w2.status = some StatusOK ∧
      w2.header.Get errorHeader = wireLib.StatusText StatusInternalServerError) ∧
    (∃ w2, writeErrorToHttpResponse wireLib freshWriter
        (error.httpError 400 (error.errorString "expected")) = some w2 ∧
      w2.status = some StatusOK ∧
      w2.header.Get errorHeader = wireLib.StatusText 400) :=
  ⟨(writeError_status_is_default wireLib freshWriter rfl rfl).1 "expected" rfl,
   (writeError_status_is_default wireLib freshWriter rfl rfl).2 400 (error.errorString "expected")
     (by decide) rfl⟩

/-- C8, at the error "expected" written to a fresh response writer: the
response ends up with status 200 and the header text "Internal Server Error",
not with status 500. -/
theorem writeError_leaves_status_ok :
    (writeErrorToHttpResponse wireLib freshWriter (error.errorString "expected")).map
      (fun w => (w.status, w.header.Get errorHeader)) = some (some 200, "Internal Server Error") ∧
    (writeErrorToHttpResponse wireLib freshWriter (error.errorString "expected")).map
      (fun w => w.status) ≠ some (some StatusInternalServerError) := by
  decide

/-- C7, at the error "boom" written to a fresh response writer. Read back from
a body that delivers the ten written bytes in one piece, the check returns the
error "boom". Read back from a body that delivers them as seven bytes, then
three, the second `Read` returns the three payload bytes that are buffered,
the payload is 0A 04 62 00 00 00, and the check returns an error whose text is
"b" followed by three NUL characters. And at the `httpError` with code 0
wrapping "boom": the code has no status text, the conduit-error header is
written empty, and the check returns nil. -/
theorem envelope_round_trip_fails :
    (writeErrorToHttpResponse wireLib freshWriter (error.errorString "boom")).map
      (fun w => (w.body, (checkIfResponseHasConduitError (fromByteStreamToProtocolBuffers wireLib) (responseOf w [w.body])).1)) =
        some ([6, 0, 0, 0, 10, 4, 98, 111, 111, 109], error.errorString "boom") ∧
    (writeErrorToHttpResponse wireLib freshWriter (error.errorString "boom")).map
      (fun w => (checkIfResponseHasConduitError (fromByteStreamToProtocolBuffers wireLib)
        (responseOf w [w.body.take 7, w.body.drop 7])).1) =
        some (error.errorString "b\x00\x00\x00") ∧
    (writeErrorToHttpResponse wireLib freshWriter
      (error.httpError 0 (error.errorString "boom"))).map
      (fun w => (w.header.Get errorHeader, w.body,
        (checkIfResponseHasConduitError (fromByteStreamToProtocolBuffers wireLib) (responseOf w [w.body])).1)) =
        some ("", [6, 0, 0, 0, 10, 4, 98, 111, 111, 109], error.nil) := by
  decide

/-- C9: `checkIfResponseHasConduitError` returns nil exactly when the
conduit-error header is absent or empty, and then leaves the response as it
was (no read of the body, no close). When the header is not empty it returns
an error that is not nil: the text of the message read when the callee
`fromByteStreamToProtocolBuffers` reports no error, and otherwise the report
that the body did not contain a protobuf error, ending in the cause. The
headers are untouched, the body is closed, and its reader is where the one
call of the callee on a new `bufio.Reader` leaves it; for the callee as
`deserializePayloadFromReader` followed by unmarshalling, that is where
exactly one `deserializePayloadFromReader` leaves it. -/
theorem checkIfResponseHasConduitError_exclusive
    (readMessage : Reader → (ApiError × error) × Reader) (rsp : Response) :
    ((checkIfResponseHasConduitError readMessage rsp).1 = error.nil ↔
      rsp.Header.Get errorHeader = "") ∧
    (rsp.Header.Get errorHeader = "" → (checkIfResponseHasConduitError readMessage rsp).2 = rsp) ∧
    (rsp.Header.Get errorHeader ≠ "" →
      (checkIfResponseHasConduitError readMessage rsp).1 ≠ error.nil ∧
      (checkIfResponseHasConduitError readMessage rsp).2 =
        ⟨rsp.Header, ⟨(readMessage (NewReader rsp.Body.rd)).2.rd, true⟩⟩ ∧
      ((readMessage (NewReader rsp.Body.rd)).1.2 = error.nil →
        (checkIfResponseHasConduitError readMessage rsp).1 =
          error.errorString (readMessage (NewReader rsp.Body.rd)).1.1.Error) ∧
      ((readMessage (NewReader rsp.Body.rd)).1.2 ≠ error.nil →
        (checkIfResponseHasConduitError readMessage rsp).1 = error.errorString
          ("response is Conduit error header [" ++ rsp.Header.Get errorHeader ++
            "], but response body didn\x27t contain protobuf error: " ++
            (readMessage (NewReader rsp.Body.rd)).1.2.text))) ∧
    (∀ lib : Lib, (fromByteStreamToProtocolBuffers lib (NewReader rsp.Body.rd)).2 =
      (deserializePayloadFromReader (NewReader rsp.Body.rd)).2) := by
  refine ⟨?_, ?_, ?_, ?_⟩
  · by_cases hh : rsp.Header.Get errorHeader = ""
    · simp [checkIfResponseHasConduitError, hh]
    · simp only [checkIfResponseHasConduitError, hh, ne_eq, not_false_eq_true, if_true, iff_false]
      by_cases hc : (readMessage (NewReader rsp.Body.rd)).1.2 = error.nil
      · simp [hc]
      · simp [hc]
  · intro hh
    simp [checkIfResponseHasConduitError, hh]
  · intro hh
    by_cases hc : (readMessage (NewReader rsp.Body.rd)).1.2 = error.nil
    · simp [checkIfResponseHasConduitError, hh, hc]
    · simp [checkIfResponseHasConduitError, hh, hc]
  · intro lib
    simp only [fromByteStreamToProtocolBuffers]
    by_cases hd : (deserializePayloadFromReader (NewReader rsp.Body.rd)).1.2 = error.nil
    · simp [hd]
    · simp [hd]

/-- A response without the conduit-error header whose body holds two bytes. -/
def plainResponse : Response := ⟨[(contentTypeHeader, [protobufContentType])], ⟨⟨[[1, 2]], false⟩, false⟩⟩

/-- A response with the conduit-error header whose body holds, in one chunk
each, the frame of the error message "boom" and a second frame. -/
def errorResponse : Response :=
  ⟨[(errorHeader, ["Internal Server Error"])],
    ⟨⟨[[6, 0, 0, 0, 10, 4, 98, 111, 111, 109], [1, 0, 0, 0, 7]], false⟩, false⟩⟩

/-- Witness of C9: a response without the header is left as it was; on a
response with the header and two frames in its body the check returns the
error "boom", closes the body and leaves the second frame unread. -/
theorem checkIfResponseHasConduitError_exclusive_witness :
    (checkIfResponseHasConduitError (fromByteStreamToProtocolBuffers wireLib) plainResponse).1 = error.nil ∧
    (checkIfResponseHasConduitError (fromByteStreamToProtocolBuffers wireLib) plainResponse).2 = plainResponse ∧
    (checkIfResponseHasConduitError (fromByteStreamToProtocolBuffers wireLib) errorResponse).1 ≠ error.nil ∧
    (checkIfResponseHasConduitError (fromByteStreamToProtocolBuffers wireLib) errorResponse) =
      (error.errorString "boom",
        ⟨[(errorHeader, ["Internal Server Error"])], ⟨⟨[[1, 0, 0, 0, 7]], false⟩, true⟩⟩) :=
  ⟨(checkIfResponseHasConduitError_exclusive
      (fromByteStreamToProtocolBuffers wireLib) plainResponse).1.mpr (by decide),
   (checkIfResponseHasConduitError_exclusive
      (fromByteStreamToProtocolBuffers wireLib) plainResponse).2.1 (by decide),
   ((checkIfResponseHasConduitError_exclusive
      (fromByteStreamToProtocolBuffers wireLib) errorResponse).2.2.1 (by decide)).1,
   by decide⟩

/-! ## Owner resolution -/

/-- A store that holds the one object `item` under `key`. -/
def storeWith (key : String) (item : Item) : ReplicaSetStore :=
  ⟨fun k => if k = key then ⟨some item, true, error.nil⟩ else ⟨none, false, error.nil⟩⟩

/-- When the first owner of the pod is a ReplicaSet that the store holds and
that has no owner itself, the result carries the namespace twice. -/
theorem GetDeploymentForPod_replicaSet_without_owner (p : ReplicaSetStore) (pod : Pod)
    (parent : OwnerReference) (others : List OwnerReference) (rs : ReplicaSet)
    (ho : pod.OwnerReferences = parent :: others) (hk : parent.Kind = "ReplicaSet")
    (hg : p.GetReplicaSet (pod.Namespace ++ "/" ++ parent.Name) = Except.ok rs)
    (hr : rs.OwnerReferences = []) :
    p.GetDeploymentForPod pod =
      (pod.Namespace ++ "/" ++ (pod.Namespace ++ "/" ++ parent.Name), error.nil) := by
  simp [ReplicaSetStore.GetDeploymentForPod, ho, hk, hg, hr]

/-- C10, at the pod `web-1` of namespace `ns` owned by the ReplicaSet `rs1`,
with the store holding `rs1` under `ns/rs1` without an owner: the result is
`ns/ns/rs1` with a nil error, not `ns/rs1`. A pod without owner gives an
error, and a pod owned by the Deployment `web` gives `ns/web`. -/
theorem GetDeploymentForPod_doubles_namespace :
    (storeWith "ns/rs1" (Item.replicaSet ⟨"rs1", []⟩)).GetDeploymentForPod
      ⟨"ns", "web-1", [⟨"ReplicaSet", "rs1"⟩]⟩ = ("ns/ns/rs1", error.nil) ∧
    (storeWith "ns/rs1" (Item.replicaSet ⟨"rs1", [⟨"Deployment", "web"⟩]⟩)).GetDeploymentForPod
      ⟨"ns", "web-1", [⟨"ReplicaSet", "rs1"⟩]⟩ = ("ns/web", error.nil) ∧
    (storeWith "ns/rs1" (Item.replicaSet ⟨"rs1", []⟩)).GetDeploymentForPod
      ⟨"ns", "web-1", [⟨"Deployment", "web"⟩]⟩ = ("ns/web", error.nil) ∧
    (storeWith "ns/rs1" (Item.replicaSet ⟨"rs1", []⟩)).GetDeploymentForPod
      ⟨"ns", "web-1", []⟩ = ("", error.errorString "Pod web-1 has no owner") := by
  decide

end Conduit
